import Mathlib

set_option maxHeartbeats 1000000
set_option autoImplicit false

/- Shallow embedding of the clipso-ai client-side processing pipeline:
   the Processing page (initiateProcessing, checkTranscriptStatus,
   checkFinalVideoStatus, getShareableId) and the api client (uploadVideo).
   External calls are resolved through an explicit Oracle of outcomes; the
   run of the page is a pure function from the oracle to an event trace,
   the final step states, and the navigation target. -/

/-- Status of one UI pipeline step, as in the ProcessingStep interface. -/
inductive StepStatus
  | waiting
  | processing
  | completed
  | error
deriving DecidableEq

/-- One pipeline step: status plus progress percentage. -/
structure Step where
  status : StepStatus
  progress : Nat
deriving DecidableEq

/-- The five entries of the steps array, indices 0..4: upload,
transcription, captions, broll, rendering. -/
structure Steps where
  upload : Step
  transcription : Step
  captions : Step
  broll : Step
  rendering : Step
deriving DecidableEq

/-- Initial steps state of the Processing page. -/
def initialSteps : Steps :=
  { upload := { status := .completed, progress := 100 }
    transcription := { status := .processing, progress := 0 }
    captions := { status := .waiting, progress := 0 }
    broll := { status := .waiting, progress := 0 }
    rendering := { status := .waiting, progress := 0 } }

/-- Max number of transcript poll attempts before giving up (source: maxAttempts = 20). -/
def maxAttempts : Nat := 20

/-- Max number of final-video poll attempts (source: maxFinalVideoAttempts = 30). -/
def maxFinalVideoAttempts : Nat := 30

/-- Delay passed to setTimeout for the transcript poll retry (3000 ms). -/
def transcriptPollDelayMs : Nat := 3000

/-- Delay passed to setTimeout for the final-video poll retry (3000 ms). -/
def finalVideoPollDelayMs : Nat := 3000

/-- Transcription progress formula: Math.min(10 + attempts * 5, 95). -/
def transcriptionProgress (attempts : Nat) : Nat :=
  min (10 + attempts * 5) 95

/-- Rendering progress formula:
Math.min(10 + Math.floor((finalVideoAttempts / maxFinalVideoAttempts) * 85), 95),
with the float floor embedded as natural division. -/
def renderingProgress (attempts : Nat) : Nat :=
  min (10 + attempts * 85 / maxFinalVideoAttempts) 95

/-- Overall progress: Math.round(totalProgress / steps.length) with
steps.length = 5, embedded as round-half-up on naturals. -/
def overallProgress (st : Steps) : Nat :=
  (2 * (st.upload.progress + st.transcription.progress + st.captions.progress +
        st.broll.progress + st.rendering.progress) + 5) / 10

/-- A transcript value returned by getTranscript: a plain string, or an
object whose text field may be present; the stringified field models
JSON.stringify of the whole object. -/
inductive TranscriptVal
  | str (s : String)
  | obj (text : Option String) (stringified : String)
deriving DecidableEq

/-- Source: typeof transcript === 'string' ? transcript
    : transcript.text || JSON.stringify(transcript).slice(0, 100).
An empty text field is falsy in JS, hence falls through to the slice. -/
def transcriptTextOf : TranscriptVal → String
  | .str s => s
  | .obj (some t) j => if t = "" then ⟨j.data.take 100⟩ else t
  | .obj none j => ⟨j.data.take 100⟩

/-- Source: transcriptText.split('.')[0] — the text before the first dot,
the whole text when no dot occurs. -/
def firstDotSegment (s : String) : String :=
  ⟨s.data.takeWhile (fun c => c != '.')⟩

/-- The fixed b-roll prompt template. -/
def brollTemplate : String := "High quality visual scene representing: "

/-- Source: brollPrompt = High quality visual scene representing ... plus
the first dot-segment of the transcript text. -/
def brollPromptOf (tr : TranscriptVal) : String :=
  brollTemplate ++ firstDotSegment (transcriptTextOf tr)

/-- Characters that encodeURIComponent leaves unescaped:
A-Z a-z 0-9 - _ . ! ~ * apostrophe ( ). -/
def isUnreservedChar (c : Char) : Bool :=
  c.isAlpha || c.isDigit || c == '-' || c == '_' || c == '.' || c == '!' ||
  c == '~' || c == '*' || c.toNat == 39 || c == '(' || c == ')'

/-- Uppercase hexadecimal digit for a value below 16. -/
def hexDigitChar (n : Nat) : Char :=
  if n < 10 then Char.ofNat (48 + n) else Char.ofNat (55 + n)

/-- Percent-encoding of one byte. -/
def percentEncodeByte (b : Nat) : List Char :=
  ['%', hexDigitChar (b / 16), hexDigitChar (b % 16)]

/-- UTF-8 bytes of one code point. -/
def utf8Bytes (c : Char) : List Nat :=
  let n := c.toNat
  if n < 128 then [n]
  else if n < 2048 then [192 + n / 64, 128 + n % 64]
  else if n < 65536 then [224 + n / 4096, 128 + n / 64 % 64, 128 + n % 64]
  else [240 + n / 262144, 128 + n / 4096 % 64, 128 + n / 64 % 64, 128 + n % 64]

/-- Encoding of one character under encodeURIComponent. -/
def encodeChar (c : Char) : List Char :=
  if isUnreservedChar c then [c] else (utf8Bytes c).foldr (fun b acc => percentEncodeByte b ++ acc) []

/-- Character-list version of encodeURIComponent. -/
def encodeList : List Char → List Char
  | [] => []
  | c :: cs => encodeChar c ++ encodeList cs

/-- JS encodeURIComponent, embedded over the character list. -/
def encodeURIComponent (s : String) : String :=
  ⟨encodeList s.data⟩

/-- Source regex replace with the empty string: name.replace of the pattern
dot followed by one or more characters none of which is a slash or a dot,
anchored at the end.  The regex matches exactly when the segment after the
last dot is nonempty and slash-free. -/
def stripExt (s : String) : String :=
  let rev := s.data.reverse
  let suf := rev.takeWhile (fun c => c != '.')
  if suf.length < rev.length ∧ suf ≠ [] ∧ '/' ∉ suf then
    ⟨(rev.drop (suf.length + 1)).reverse⟩
  else s

/-- Source: getShareableId = encodeURIComponent of the filename with its
extension removed. -/
def getShareableId (filename : String) : String :=
  encodeURIComponent (stripExt filename)

/-- Source: filename.split('.').pop() — the segment after the last dot,
the whole name when no dot occurs. -/
def extOf (name : String) : String :=
  ⟨(name.data.reverse.takeWhile (fun c => c != '.')).reverse⟩

/-- Decimal digit character for a value below 10. -/
def digitChar (d : Nat) : Char := Char.ofNat (48 + d)

/-- Fueled decimal rendering of a natural number. -/
def natDigitsAux : Nat → Nat → List Char
  | 0, _ => []
  | fuel + 1, n =>
    if n < 10 then [digitChar n]
    else natDigitsAux fuel (n / 10) ++ [digitChar (n % 10)]

/-- Decimal digits of a natural number, most significant first. -/
def natDigits (n : Nat) : List Char := natDigitsAux (n + 1) n

/-- Decimal string of a natural number, as a JS template literal renders it. -/
def decimalString (n : Nat) : String := ⟨natDigits n⟩

/-- Source uploadVideo rename: base name (extension stripped by the same
regex as getShareableId), underscore, Date.now() timestamp, dot, and the
segment split('.').pop() of the original name. -/
def newFileName (name : String) (timestamp : Nat) : String :=
  stripExt name ++ "_" ++ decimalString timestamp ++ "." ++ extOf name

/-- Data returned by getFinalVideoUrl; a missing or empty share_id is
falsy in JS. -/
structure FinalVideoData where
  shareId : Option String
  finalVideoUrl : String
deriving DecidableEq

/-- Source: const videoId = shareId || getShareableId(filename), where
shareId = finalVideoData.share_id; the empty string is falsy. -/
def navigationVideoId (shareId : Option String) (filename : String) : String :=
  match shareId with
  | some s => if s = "" then getShareableId filename else s
  | none => getShareableId filename

/-- Outcomes of the external calls, one entry per adapter; the poll maps
give the result of the k-th attempt (attempt numbers start at 1). -/
structure Oracle where
  captionsOk : Bool
  transcriptAt : Nat → Option TranscriptVal
  brollOk : Bool
  finalGenOk : Bool
  finalUrlAt : Nat → Option FinalVideoData

/-- Observable actions of one run: adapter calls with their outcomes and
the scheduled retry delays. -/
inductive Event
  | genCaptions (ok : Bool)
  | getTranscript (attempt : Nat) (ok : Bool)
  | sleepTranscript (ms : Nat)
  | getBRoll (prompt : String) (ok : Bool)
  | generateFinalVideo (ok : Bool)
  | getFinalVideoUrl (attempt : Nat) (ok : Bool)
  | sleepFinal (ms : Nat)
deriving DecidableEq

/-- Result of one run of the effect: ordered event trace, final steps
state, final currentStepIndex, and the preview navigation target. -/
structure RunResult where
  events : List Event
  steps : Steps
  currentStepIndex : Nat
  nav : Option String
deriving DecidableEq

/-- Source checkFinalVideoStatus, fueled: fuel equals
maxFinalVideoAttempts - attempts on entry, so fuel 0 is exactly the
attempts >= maxFinalVideoAttempts exhaustion guard.  Exhaustion marks the
rendering step completed and navigates to the filename-derived id. -/
def checkFinalVideoStatusAux (o : Oracle) (filename : String) :
    Nat → Nat → Steps → RunResult
  | 0, _, st =>
    { events := []
      steps := { st with rendering := { status := .completed, progress := 100 } }
      currentStepIndex := 4
      nav := some (getShareableId filename) }
  | fuel + 1, attempts, st =>
    let a := attempts + 1
    match o.finalUrlAt a with
    | some data =>
      { events := [.getFinalVideoUrl a true]
        steps := { st with rendering := { status := .completed, progress := 100 } }
        currentStepIndex := 4
        nav := some (navigationVideoId data.shareId filename) }
    | none =>
      let st' := { st with rendering := { st.rendering with progress := renderingProgress a } }
      let r := checkFinalVideoStatusAux o filename fuel a st'
      { r with events := .getFinalVideoUrl a false :: .sleepFinal finalVideoPollDelayMs :: r.events }

/-- The final-video poll loop started at a given attempts counter. -/
def checkFinalVideoStatus (o : Oracle) (filename : String) (attempts : Nat) (st : Steps) : RunResult :=
  checkFinalVideoStatusAux o filename (maxFinalVideoAttempts - attempts) attempts st

/-- Source: the generateFinalVideo call followed by the poll loop on
success, or the rendering-error branch (which still navigates to the
filename-derived preview) on failure. -/
def startFinalVideo (o : Oracle) (filename : String) (st : Steps) : RunResult :=
  if o.finalGenOk then
    let r := checkFinalVideoStatus o filename 0 st
    { r with events := .generateFinalVideo true :: r.events }
  else
    { events := [.generateFinalVideo false]
      steps := { st with rendering := { status := .error, progress := 100 } }
      currentStepIndex := 4
      nav := some (getShareableId filename) }

/-- Source: the getBRoll call; on success the broll step completes, on
failure it is marked error — both branches then run final video
generation with rendering set processing at 10. -/
def runBroll (o : Oracle) (filename : String) (tr : TranscriptVal) (st : Steps) : RunResult :=
  let prompt := brollPromptOf tr
  if o.brollOk then
    let st' := { st with broll := { status := .completed, progress := 100 },
                         rendering := { status := .processing, progress := 10 } }
    let r := startFinalVideo o filename st'
    { r with events := .getBRoll prompt true :: r.events }
  else
    let st' := { st with broll := { status := .error, progress := 100 },
                         rendering := { status := .processing, progress := 10 } }
    let r := startFinalVideo o filename st'
    { r with events := .getBRoll prompt false :: r.events }

/-- Steps state written by the transcript-poll exhaustion branch:
transcription, captions and broll marked completed, rendering processing. -/
def exhaustSteps (st : Steps) : Steps :=
  { st with transcription := { status := .completed, progress := 100 },
            captions := { status := .completed, progress := 100 },
            broll := { status := .completed, progress := 100 },
            rendering := { status := .processing, progress := 0 } }

/-- Source checkTranscriptStatus, fueled: fuel equals
maxAttempts - attempts on entry, so fuel 0 is exactly the
attempts >= maxAttempts exhaustion guard.  On transcript success the
captions are assumed complete, the broll flag is consulted, and b-roll
generation starts; on failure the poll is rescheduled after 3000 ms. -/
def checkTranscriptStatusAux (o : Oracle) (filename : String) (brollFlag : Bool) :
    Nat → Nat → Steps → RunResult
  | 0, _, st =>
    { events := [], steps := exhaustSteps st, currentStepIndex := 4, nav := none }
  | fuel + 1, attempts, st =>
    let a := attempts + 1
    match o.transcriptAt a with
    | some tr =>
      let st' := { st with transcription := { status := .completed, progress := 100 },
                           captions := { status := .completed, progress := 100 },
                           broll := { status := .processing, progress := 0 } }
      if brollFlag then
        { events := [.getTranscript a true], steps := st', currentStepIndex := 3, nav := none }
      else
        let r := runBroll o filename tr st'
        { r with events := .getTranscript a true :: r.events }
    | none =>
      let st' := { st with transcription := { st.transcription with progress := transcriptionProgress a } }
      let r := checkTranscriptStatusAux o filename brollFlag fuel a st'
      { r with events := .getTranscript a false :: .sleepTranscript transcriptPollDelayMs :: r.events }

/-- The transcript poll loop started at a given attempts counter. -/
def checkTranscriptStatus (o : Oracle) (filename : String) (brollFlag : Bool) (attempts : Nat) (st : Steps) : RunResult :=
  checkTranscriptStatusAux o filename brollFlag (maxAttempts - attempts) attempts st

/-- Source initiateProcessing as seen by one effect run: the
isProcessingStarted guard, the generateCaptions call, then the transcript
poll chain.  The two flag arguments are the state snapshot the run
observes. -/
def initiateProcessing (o : Oracle) (filename : String) (startedFlag brollFlag : Bool) : RunResult :=
  if startedFlag then
    { events := [], steps := initialSteps, currentStepIndex := 0, nav := none }
  else if o.captionsOk then
    let r := checkTranscriptStatus o filename brollFlag 0 initialSteps
    { r with events := .genCaptions true :: r.events }
  else
    { events := [.genCaptions false], steps := initialSteps, currentStepIndex := 0, nav := none }

/-- The two processing flags of the component state. -/
structure Flags where
  isProcessingStarted : Bool
  isBrollProcessing : Bool
deriving DecidableEq

/-- Event classifiers. -/
def isGenCaptionsCall : Event → Bool
  | .genCaptions _ => true
  | _ => false

/-- True on any getTranscript call event. -/
def isGetTranscriptCall : Event → Bool
  | .getTranscript _ _ => true
  | _ => false

/-- True exactly on the successful getTranscript event. -/
def isTranscriptOk : Event → Bool
  | .getTranscript _ ok => ok
  | _ => false

/-- True on any getBRoll call event. -/
def isBRollCall : Event → Bool
  | .getBRoll _ _ => true
  | _ => false

/-- True on any generateFinalVideo call event. -/
def isGenFinalCall : Event → Bool
  | .generateFinalVideo _ => true
  | _ => false

/-- True on any getFinalVideoUrl call event. -/
def isGetFinalUrlCall : Event → Bool
  | .getFinalVideoUrl _ _ => true
  | _ => false

/-- Events produced by one effect run observing a given flag snapshot. -/
def effectRunEvents (o : Oracle) (filename : String) (f : Flags) : List Event :=
  (initiateProcessing o filename f.isProcessingStarted f.isBrollProcessing).events

/-- Committed component state after one run: setIsProcessingStarted(true)
is issued when the guard passes, setIsBrollProcessing(true) when the run
reaches the b-roll step. -/
def flagsAfterRun (o : Oracle) (filename : String) (f : Flags) : Flags :=
  if f.isProcessingStarted then f
  else
    { isProcessingStarted := true
      isBrollProcessing :=
        f.isBrollProcessing || (effectRunEvents o filename f).any isTranscriptOk }

/-- Two effect runs where the second observes the committed state of the
first. -/
def runTwiceCommitted (o : Oracle) (filename : String) : List Event :=
  effectRunEvents o filename { isProcessingStarted := false, isBrollProcessing := false } ++
  effectRunEvents o filename
    (flagsAfterRun o filename { isProcessingStarted := false, isBrollProcessing := false })

/-- Two effect runs where the second observes the same stale snapshot as
the first, i.e. it re-runs before the setState commit. -/
def runTwiceStale (o : Oracle) (filename : String) : List Event :=
  effectRunEvents o filename { isProcessingStarted := false, isBrollProcessing := false } ++
  effectRunEvents o filename { isProcessingStarted := false, isBrollProcessing := false }

/-- Delays scheduled through setTimeout in a trace, in order. -/
def scheduledDelays (l : List Event) : List Nat :=
  l.filterMap fun e =>
    match e with
    | .sleepTranscript ms => some ms
    | .sleepFinal ms => some ms
    | _ => none

/-- Holds when every occurrence of a Q event is preceded by an earlier P
event: no Q may appear before the first P. -/
def precededBy (P Q : Event → Bool) : List Event → Bool
  | [] => true
  | e :: rest => !(Q e) && (P e || precededBy P Q rest)

/-- True when some step of the record carries the error status. -/
def stepsHasError (st : Steps) : Bool :=
  st.upload.status == .error || st.transcription.status == .error ||
  st.captions.status == .error || st.broll.status == .error ||
  st.rendering.status == .error

/-- Concrete sample values used by witnesses and counterexamples. -/
def trSample : TranscriptVal := .str "Hello world. More text."

/-- Sample final-video response with server-assigned share id. -/
def dataSample : FinalVideoData := { shareId := some "abc123", finalVideoUrl := "final.mp4" }

/-- Oracle where every adapter succeeds on its first attempt. -/
def oracleAllOk : Oracle :=
  { captionsOk := true
    transcriptAt := fun a => if a = 1 then some trSample else none
    brollOk := true
    finalGenOk := true
    finalUrlAt := fun a => if a = 1 then some dataSample else none }

/-- Oracle where the transcript never becomes ready. -/
def oracleTranscriptNever : Oracle :=
  { captionsOk := true
    transcriptAt := fun _ => none
    brollOk := true
    finalGenOk := true
    finalUrlAt := fun a => if a = 1 then some dataSample else none }

/-- Oracle where the b-roll call fails and everything else succeeds on its
first attempt. -/
def oracleBrollFails : Oracle :=
  { captionsOk := true
    transcriptAt := fun a => if a = 1 then some trSample else none
    brollOk := false
    finalGenOk := true
    finalUrlAt := fun a => if a = 1 then some dataSample else none }

/-- Oracle where the final video never becomes ready. -/
def oracleFinalNever : Oracle :=
  { captionsOk := true
    transcriptAt := fun a => if a = 1 then some trSample else none
    brollOk := true
    finalGenOk := true
    finalUrlAt := fun _ => none }

/-- Events of a run of the transcript poll in which every polled attempt
fails: one failed getTranscript call and one scheduled sleep per attempt. -/
def trPollEvents : Nat → Nat → List Event
  | 0, _ => []
  | fuel + 1, attempts =>
    .getTranscript (attempts + 1) false :: .sleepTranscript transcriptPollDelayMs ::
      trPollEvents fuel (attempts + 1)

/-- Events of a run of the final-video poll in which every polled attempt
fails. -/
def finPollEvents : Nat → Nat → List Event
  | 0, _ => []
  | fuel + 1, attempts =>
    .getFinalVideoUrl (attempts + 1) false :: .sleepFinal finalVideoPollDelayMs ::
      finPollEvents fuel (attempts + 1)

/-- True unless the event is a sleep scheduled with a delay other than
3000 ms. -/
def isConstSleep : Event → Bool
  | .sleepTranscript ms => ms == 3000
  | .sleepFinal ms => ms == 3000
  | _ => true

/-- Accumulated decimal value of a digit string, the left inverse used to
show decimal rendering is injective. -/
def undigits (l : List Char) : Nat :=
  l.foldl (fun a c => 10 * a + (c.toNat - 48)) 0

theorem string_data_append (s t : String) : (s ++ t).data = s.data ++ t.data := by
  cases s
  cases t
  rfl

theorem string_eq_of_data (s t : String) (h : s.data = t.data) : s = t := by
  cases s
  cases t
  exact congrArg String.mk h

theorem takeWhile_append_stop (p : Char → Bool) (l1 : List Char) (c : Char) (l2 : List Char)
    (h1 : ∀ x ∈ l1, p x = true) (hc : p c = false) :
    (l1 ++ c :: l2).takeWhile p = l1 := by
  induction l1 with
  | nil => simp [List.takeWhile_cons, hc]
  | cons x xs ih =>
    have hx : p x = true := h1 x (by simp)
    simp [List.takeWhile_cons, hx]
    exact ih fun y hy => h1 y (by simp [hy])

theorem sep_split_unique (c : Char) :
    ∀ (X1 E1 X2 E2 : List Char), c ∉ E1 → c ∉ E2 →
      X1 ++ c :: E1 = X2 ++ c :: E2 → X1 = X2 ∧ E1 = E2 := by
  intro X1
  induction X1 with
  | nil =>
    intro E1 X2 E2 h1 h2 heq
    cases X2 with
    | nil => simpa using heq
    | cons x xs =>
      simp only [List.nil_append, List.cons_append, List.cons.injEq] at heq
      exact absurd (heq.2 ▸ (by simp : c ∈ xs ++ c :: E2)) h1
  | cons x xs ih =>
    intro E1 X2 E2 h1 h2 heq
    cases X2 with
    | nil =>
      simp only [List.cons_append, List.nil_append, List.cons.injEq] at heq
      have hc2 : c ∈ E2 := heq.2 ▸ (by simp : c ∈ xs ++ c :: E1)
      exact absurd hc2 h2
    | cons y ys =>
      simp only [List.cons_append, List.cons.injEq] at heq
      have := ih E1 ys E2 h1 h2 heq.2
      exact ⟨by rw [heq.1, this.1], this.2⟩

theorem digitChar_toNat : ∀ d, d < 10 → (digitChar d).toNat = 48 + d := by decide

theorem digitChar_ne_dot : ∀ d, d < 10 → digitChar d ≠ '.' := by decide

theorem digitChar_ne_underscore : ∀ d, d < 10 → digitChar d ≠ '_' := by decide

theorem encodeChar_digitChar : ∀ d, d < 10 → encodeChar (digitChar d) = [digitChar d] := by decide

theorem natDigitsAux_mem :
    ∀ (fuel n : Nat) (c : Char), c ∈ natDigitsAux fuel n → ∃ d, d < 10 ∧ c = digitChar d := by
  intro fuel
  induction fuel with
  | zero => intro n c h; simp [natDigitsAux] at h
  | succ fuel ih =>
    intro n c h
    by_cases hn : n < 10
    · simp [natDigitsAux, hn] at h
      exact ⟨n, hn, h⟩
    · simp [natDigitsAux, hn] at h
      rcases h with h | h
      · exact ih (n / 10) c h
      · exact ⟨n % 10, Nat.mod_lt _ (by omega), h⟩

theorem natDigits_mem (n : Nat) (c : Char) (h : c ∈ natDigits n) :
    ∃ d, d < 10 ∧ c = digitChar d :=
  natDigitsAux_mem (n + 1) n c h

theorem undigits_append_digit (l : List Char) (c : Char) :
    undigits (l ++ [c]) = 10 * undigits l + (c.toNat - 48) := by
  simp [undigits, List.foldl_append]

theorem natDigitsAux_undigits :
    ∀ (fuel n : Nat), n < fuel → undigits (natDigitsAux fuel n) = n := by
  intro fuel
  induction fuel with
  | zero => intro n h; omega
  | succ fuel ih =>
    intro n h
    by_cases hn : n < 10
    · simp [natDigitsAux, hn, undigits, digitChar_toNat n hn]
    · have hlt : n / 10 < fuel := by
        have : n / 10 < n := by omega
        omega
      simp only [natDigitsAux, hn, if_false]
      rw [undigits_append_digit, ih (n / 10) hlt, digitChar_toNat (n % 10) (Nat.mod_lt _ (by omega))]
      omega

theorem natDigits_inj (a b : Nat) (h : natDigits a = natDigits b) : a = b := by
  have ha := natDigitsAux_undigits (a + 1) a (by omega)
  have hb := natDigitsAux_undigits (b + 1) b (by omega)
  rw [natDigits] at h
  rw [h, natDigits] at ha
  omega

theorem natDigits_no_dot (n : Nat) : '.' ∉ natDigits n := by
  intro h
  rcases natDigits_mem n _ h with ⟨d, hd, hc⟩
  exact digitChar_ne_dot d hd hc.symm

theorem natDigits_no_underscore (n : Nat) : '_' ∉ natDigits n := by
  intro h
  rcases natDigits_mem n _ h with ⟨d, hd, hc⟩
  exact digitChar_ne_underscore d hd hc.symm

theorem encodeList_append (l1 l2 : List Char) :
    encodeList (l1 ++ l2) = encodeList l1 ++ encodeList l2 := by
  induction l1 with
  | nil => simp [encodeList]
  | cons c cs ih => simp [encodeList, ih]

theorem encodeList_id_of_singleton (l : List Char) (h : ∀ c ∈ l, encodeChar c = [c]) :
    encodeList l = l := by
  induction l with
  | nil => simp [encodeList]
  | cons c cs ih =>
    simp [encodeList, h c (by simp)]
    exact ih fun x hx => h x (by simp [hx])

theorem encodeList_natDigits (n : Nat) : encodeList (natDigits n) = natDigits n := by
  refine encodeList_id_of_singleton _ fun c hc => ?_
  rcases natDigits_mem n c hc with ⟨d, hd, rfl⟩
  exact encodeChar_digitChar d hd

theorem encodeChar_underscore : encodeChar '_' = ['_'] := by decide

theorem encodeChar_dot : encodeChar '.' = ['.'] := by decide

theorem extOf_no_dot (name : String) : ∀ c ∈ (extOf name).data, c ≠ '.' := by
  intro c hc
  have hm : c ∈ name.data.reverse.takeWhile (fun c => c != '.') := List.mem_reverse.mp hc
  simpa using List.mem_takeWhile_imp hm

theorem extOf_subset (name : String) : ∀ c ∈ (extOf name).data, c ∈ name.data := by
  intro c hc
  have hm : c ∈ name.data.reverse.takeWhile (fun c => c != '.') := List.mem_reverse.mp hc
  exact List.mem_reverse.mp (List.takeWhile_subset _ hm)

theorem stripExt_concat_good (P E : List Char) (hE : ∀ c ∈ E, c ≠ '.') (hne : E ≠ [])
    (hs : '/' ∉ E) : stripExt ⟨P ++ '.' :: E⟩ = ⟨P⟩ := by
  have htw : (E.reverse ++ '.' :: P.reverse).takeWhile (fun c => c != '.') = E.reverse :=
    takeWhile_append_stop _ _ _ _
      (fun x hx => by simpa using hE x (List.mem_reverse.mp hx)) (by simp)
  have hrev : (P ++ '.' :: E).reverse = E.reverse ++ '.' :: P.reverse := by simp
  have hdata : (String.mk (P ++ '.' :: E)).data = P ++ '.' :: E := rfl
  simp only [stripExt, hdata, hrev, htw]
  rw [if_pos]
  · congr 1
    have hsplit : E.reverse ++ '.' :: P.reverse = (E.reverse ++ ['.']) ++ P.reverse := by simp
    rw [hsplit, show E.reverse.length + 1 = (E.reverse ++ ['.']).length by simp,
      List.drop_left, List.reverse_reverse]
  · refine ⟨by simp, ?_, ?_⟩
    · simpa [List.reverse_eq_nil_iff] using hne
    · simpa [List.mem_reverse] using hs

theorem stripExt_concat_bad (P E : List Char) (hE : ∀ c ∈ E, c ≠ '.')
    (h : E = [] ∨ '/' ∈ E) : stripExt ⟨P ++ '.' :: E⟩ = ⟨P ++ '.' :: E⟩ := by
  have htw : (E.reverse ++ '.' :: P.reverse).takeWhile (fun c => c != '.') = E.reverse :=
    takeWhile_append_stop _ _ _ _
      (fun x hx => by simpa using hE x (List.mem_reverse.mp hx)) (by simp)
  have hrev : (P ++ '.' :: E).reverse = E.reverse ++ '.' :: P.reverse := by simp
  have hdata : (String.mk (P ++ '.' :: E)).data = P ++ '.' :: E := rfl
  simp only [stripExt, hdata, hrev, htw]
  rw [if_neg]
  intro hcond
  rcases h with h | h
  · exact hcond.2.1 (by simp [h])
  · exact hcond.2.2 (List.mem_reverse.mpr h)

theorem newFileName_data (name : String) (t : Nat) :
    (newFileName name t).data =
      (stripExt name).data ++ '_' :: (natDigits t ++ '.' :: (extOf name).data) := by
  show (stripExt name ++ "_" ++ decimalString t ++ "." ++ extOf name).data = _
  rw [string_data_append, string_data_append, string_data_append]
  show ((stripExt name).data ++ ['_'] ++ (decimalString t).data ++ ['.']) ++ (extOf name).data = _
  simp [decimalString, List.append_assoc]

theorem newFileName_eq_mk (name : String) (t : Nat) :
    newFileName name t =
      ⟨((stripExt name).data ++ '_' :: natDigits t) ++ '.' :: (extOf name).data⟩ := by
  refine string_eq_of_data _ _ ?_
  rw [newFileName_data]
  simp [List.append_assoc]

theorem shareId_newFileName_good (name : String) (t : Nat)
    (hne : (extOf name).data ≠ []) (hs : '/' ∉ (extOf name).data) :
    (getShareableId (newFileName name t)).data =
      encodeList (stripExt name).data ++ '_' :: natDigits t := by
  rw [getShareableId, newFileName_eq_mk,
    stripExt_concat_good _ _ (extOf_no_dot name) hne hs]
  show encodeList ((stripExt name).data ++ '_' :: natDigits t) = _
  rw [encodeList_append]
  show _ ++ (encodeChar '_' ++ encodeList (natDigits t)) = _
  rw [encodeChar_underscore, encodeList_natDigits]
  rfl

theorem shareId_newFileName_empty (name : String) (t : Nat)
    (he : (extOf name).data = []) :
    (getShareableId (newFileName name t)).data =
      encodeList (stripExt name).data ++ '_' :: (natDigits t ++ ['.']) := by
  rw [getShareableId, newFileName_eq_mk,
    stripExt_concat_bad _ _ (extOf_no_dot name) (Or.inl he), he]
  show encodeList (((stripExt name).data ++ '_' :: natDigits t) ++ ['.']) = _
  rw [encodeList_append, encodeList_append]
  show _ ++ (encodeChar '_' ++ encodeList (natDigits t)) ++ encodeList ['.'] = _
  rw [encodeChar_underscore, encodeList_natDigits]
  show ((encodeList (stripExt name).data ++ '_' :: natDigits t) ++ (encodeChar '.' ++ encodeList [])) = _
  rw [encodeChar_dot]
  simp [encodeList, List.append_assoc]

theorem no_underscore_digits_dot (t : Nat) : '_' ∉ natDigits t ++ ['.'] := by
  intro hm
  rcases List.mem_append.mp hm with hm | hm
  · exact natDigits_no_underscore t hm
  · simp at hm

/-- C10: uploadVideo renames every upload to base, underscore, timestamp,
dot, extension-segment; distinct millisecond timestamps give distinct
stored filenames, and distinct filename-derived share identifiers for any
names free of path separators, even when the same source file is uploaded
twice. -/
theorem uploadVideo_timestamped_names_distinct (name1 name2 : String) (t1 t2 : Nat)
    (hne : t1 ≠ t2) :
    newFileName name1 t1 ≠ newFileName name2 t2 ∧
    ('/' ∉ name1.data → '/' ∉ name2.data →
      getShareableId (newFileName name1 t1) ≠ getShareableId (newFileName name2 t2)) := by
  have hdot1 : '.' ∉ (extOf name1).data := fun hm => extOf_no_dot name1 '.' hm rfl
  have hdot2 : '.' ∉ (extOf name2).data := fun hm => extOf_no_dot name2 '.' hm rfl
  have hu1 : '_' ∉ natDigits t1 := natDigits_no_underscore t1
  have hu2 : '_' ∉ natDigits t2 := natDigits_no_underscore t2
  constructor
  · intro h
    have hd := congrArg String.data h
    rw [newFileName_data, newFileName_data] at hd
    have h1 : ((stripExt name1).data ++ '_' :: natDigits t1) ++ '.' :: (extOf name1).data
        = ((stripExt name2).data ++ '_' :: natDigits t2) ++ '.' :: (extOf name2).data := by
      simpa using hd
    have hsp := sep_split_unique '.' _ _ _ _ hdot1 hdot2 h1
    have hsp2 := sep_split_unique '_' _ _ _ _ hu1 hu2 hsp.1
    exact hne (natDigits_inj _ _ hsp2.2)
  · intro hs1 hs2 h
    have hd := congrArg String.data h
    have hsE1 : '/' ∉ (extOf name1).data := fun hm => hs1 (extOf_subset name1 '/' hm)
    have hsE2 : '/' ∉ (extOf name2).data := fun hm => hs2 (extOf_subset name2 '/' hm)
    by_cases he1 : (extOf name1).data = [] <;> by_cases he2 : (extOf name2).data = []
    · rw [shareId_newFileName_empty name1 t1 he1, shareId_newFileName_empty name2 t2 he2] at hd
      have hsp := sep_split_unique '_' _ _ _ _
        (no_underscore_digits_dot t1) (no_underscore_digits_dot t2) hd
      exact hne (natDigits_inj _ _ (List.append_cancel_right hsp.2))
    · rw [shareId_newFileName_empty name1 t1 he1,
        shareId_newFileName_good name2 t2 he2 hsE2] at hd
      have hsp := sep_split_unique '_' _ _ _ _ (no_underscore_digits_dot t1) hu2 hd
      have hm : '.' ∈ natDigits t2 := hsp.2 ▸ (by simp : '.' ∈ natDigits t1 ++ ['.'])
      exact natDigits_no_dot t2 hm
    · rw [shareId_newFileName_good name1 t1 he1 hsE1,
        shareId_newFileName_empty name2 t2 he2] at hd
      have hsp := sep_split_unique '_' _ _ _ _ hu1 (no_underscore_digits_dot t2) hd
      have hm : '.' ∈ natDigits t1 := hsp.2.symm ▸ (by simp : '.' ∈ natDigits t2 ++ ['.'])
      exact natDigits_no_dot t1 hm
    · rw [shareId_newFileName_good name1 t1 he1 hsE1,
        shareId_newFileName_good name2 t2 he2 hsE2] at hd
      have hsp := sep_split_unique '_' _ _ _ _ hu1 hu2 hd
      exact hne (natDigits_inj _ _ hsp.2)

/-- C10 witness: two uploads of the same file at timestamps 1 and 2 get
distinct stored names and distinct share identifiers. -/
theorem uploadVideo_timestamped_names_distinct_witness :
    (1 : Nat) ≠ 2 ∧ newFileName "vid.mp4" 1 ≠ newFileName "vid.mp4" 2 ∧
      getShareableId (newFileName "vid.mp4" 1) ≠ getShareableId (newFileName "vid.mp4" 2) :=
  ⟨by decide,
   (uploadVideo_timestamped_names_distinct "vid.mp4" "vid.mp4" 1 2 (by decide)).1,
   (uploadVideo_timestamped_names_distinct "vid.mp4" "vid.mp4" 1 2 (by decide)).2
     (by decide) (by decide)⟩

theorem checkTranscriptStatusAux_all_none (o : Oracle) (fn : String) (bf : Bool)
    (h : ∀ k, o.transcriptAt k = none) :
    ∀ (fuel attempts : Nat) (st : Steps),
      checkTranscriptStatusAux o fn bf fuel attempts st =
        { events := trPollEvents fuel attempts, steps := exhaustSteps st,
          currentStepIndex := 4, nav := none } := by
  intro fuel
  induction fuel with
  | zero => intro attempts st; rfl
  | succ fuel ih =>
    intro attempts st
    simp only [checkTranscriptStatusAux, h (attempts + 1)]
    rw [ih]
    rfl

theorem checkFinalVideoStatusAux_all_none (o : Oracle) (fn : String)
    (h : ∀ k, o.finalUrlAt k = none) :
    ∀ (fuel attempts : Nat) (st : Steps),
      checkFinalVideoStatusAux o fn fuel attempts st =
        { events := finPollEvents fuel attempts,
          steps := { st with rendering := { status := .completed, progress := 100 } },
          currentStepIndex := 4, nav := some (getShareableId fn) } := by
  intro fuel
  induction fuel with
  | zero => intro attempts st; rfl
  | succ fuel ih =>
    intro attempts st
    simp only [checkFinalVideoStatusAux, h (attempts + 1)]
    rw [ih]
    rfl

theorem trPollEvents_countP_getTranscript :
    ∀ fuel a, (trPollEvents fuel a).countP isGetTranscriptCall = fuel := by
  intro fuel
  induction fuel with
  | zero => intro a; rfl
  | succ fuel ih =>
    intro a
    simp [trPollEvents, List.countP_cons, isGetTranscriptCall, ih]

theorem trPollEvents_no_calls :
    ∀ fuel a, ∀ e ∈ trPollEvents fuel a, isBRollCall e = false ∧ isGenFinalCall e = false := by
  intro fuel
  induction fuel with
  | zero => intro a e he; simp [trPollEvents] at he
  | succ fuel ih =>
    intro a e he
    simp only [trPollEvents, List.mem_cons] at he
    rcases he with rfl | rfl | he
    · simp [isBRollCall, isGenFinalCall]
    · simp [isBRollCall, isGenFinalCall]
    · exact ih (a + 1) e he

theorem finPollEvents_countP :
    ∀ fuel a, (finPollEvents fuel a).countP isGetFinalUrlCall = fuel := by
  intro fuel
  induction fuel with
  | zero => intro a; rfl
  | succ fuel ih =>
    intro a
    simp [finPollEvents, List.countP_cons, isGetFinalUrlCall, ih]

/-- C1 counterexample: with a transcript that never becomes ready, the run
exhausts all 20 attempts yet records no error state anywhere — the
transcription, captions and b-roll steps are marked completed and the
rendering step processing, contradicting that the job reaches Failed with
a recorded error. -/
theorem transcript_exhaustion_not_failed_cex :
    stepsHasError (initiateProcessing oracleTranscriptNever "vid.mp4" false false).steps = false ∧
    (initiateProcessing oracleTranscriptNever "vid.mp4" false false).steps.transcription.status = .completed ∧
    (initiateProcessing oracleTranscriptNever "vid.mp4" false false).steps.broll.status = .completed ∧
    (initiateProcessing oracleTranscriptNever "vid.mp4" false false).steps.rendering.status = .processing ∧
    ¬ (initiateProcessing oracleTranscriptNever "vid.mp4" false false).steps.rendering.status = .error := by
  decide

/-- C1 (amended): when the transcript poll never succeeds, the run makes
exactly 20 getTranscript attempts, never calls getBRoll or
generateFinalVideo and never navigates, and ends with transcription,
captions and b-roll marked completed and rendering processing — no error
status is recorded and the job is not failed. -/
theorem transcript_exhaustion_skips_pipeline (o : Oracle) (fn : String) (bf : Bool)
    (hc : o.captionsOk = true) (h : ∀ k, o.transcriptAt k = none) :
    initiateProcessing o fn false bf =
      { events := .genCaptions true :: trPollEvents 20 0,
        steps := exhaustSteps initialSteps, currentStepIndex := 4, nav := none } ∧
    (initiateProcessing o fn false bf).events.countP isGetTranscriptCall = 20 ∧
    (initiateProcessing o fn false bf).events.countP isBRollCall = 0 ∧
    (initiateProcessing o fn false bf).events.countP isGenFinalCall = 0 ∧
    stepsHasError (initiateProcessing o fn false bf).steps = false := by
  have hrun : initiateProcessing o fn false bf =
      { events := .genCaptions true :: trPollEvents 20 0,
        steps := exhaustSteps initialSteps, currentStepIndex := 4, nav := none } := by
    simp only [initiateProcessing, Bool.false_eq_true, if_false, hc, if_true, checkTranscriptStatus]
    rw [show maxAttempts - 0 = 20 from rfl,
      checkTranscriptStatusAux_all_none o fn bf h 20 0 initialSteps]
  refine ⟨hrun, ?_, ?_, ?_, by rw [hrun]; decide⟩
  · rw [hrun]
    simp [List.countP_cons, isGetTranscriptCall, trPollEvents_countP_getTranscript]
  · rw [hrun, List.countP_eq_zero]
    intro e he
    rcases List.mem_cons.mp he with rfl | he
    · simp [isBRollCall]
    · simp [(trPollEvents_no_calls 20 0 e he).1]
  · rw [hrun, List.countP_eq_zero]
    intro e he
    rcases List.mem_cons.mp he with rfl | he
    · simp [isGenFinalCall]
    · simp [(trPollEvents_no_calls 20 0 e he).2]

/-- C1 witness: the amended behavior at the concrete never-ready oracle. -/
theorem transcript_exhaustion_skips_pipeline_witness :
    oracleTranscriptNever.captionsOk = true ∧
    (∀ k, oracleTranscriptNever.transcriptAt k = none) ∧
    (initiateProcessing oracleTranscriptNever "vid.mp4" false false).events.countP isBRollCall = 0 ∧
    stepsHasError (initiateProcessing oracleTranscriptNever "vid.mp4" false false).steps = false :=
  ⟨rfl, fun _ => rfl,
   (transcript_exhaustion_skips_pipeline oracleTranscriptNever "vid.mp4" false rfl
     (fun _ => rfl)).2.2.1,
   (transcript_exhaustion_skips_pipeline oracleTranscriptNever "vid.mp4" false rfl
     (fun _ => rfl)).2.2.2.2⟩

/-- C2: when the b-roll call fails, the catch branch still marks the
pipeline forward — b-roll recorded as error, final video generation
invoked, rendering completed, navigation to the preview — so the job ends
completed rather than failed. -/
theorem broll_failure_routes_to_final_video (o : Oracle) (fn : String) (tr : TranscriptVal)
    (data : FinalVideoData) (hc : o.captionsOk = true) (h1 : o.transcriptAt 1 = some tr)
    (hb : o.brollOk = false) (hg : o.finalGenOk = true) (hf : o.finalUrlAt 1 = some data) :
    initiateProcessing o fn false false =
      { events := [.genCaptions true, .getTranscript 1 true, .getBRoll (brollPromptOf tr) false,
                   .generateFinalVideo true, .getFinalVideoUrl 1 true]
        steps := { upload := { status := .completed, progress := 100 }
                   transcription := { status := .completed, progress := 100 }
                   captions := { status := .completed, progress := 100 }
                   broll := { status := .error, progress := 100 }
                   rendering := { status := .completed, progress := 100 } }
        currentStepIndex := 4
        nav := some (navigationVideoId data.shareId fn) } := by
  simp only [initiateProcessing, Bool.false_eq_true, if_false, hc, if_true, checkTranscriptStatus]
  rw [show maxAttempts - 0 = 20 from rfl, show (20 : Nat) = 19 + 1 from rfl]
  simp only [checkTranscriptStatusAux, Nat.zero_add, h1, runBroll, hb, startFinalVideo, hg,
    checkFinalVideoStatus]
  rw [show maxFinalVideoAttempts - 0 = 30 from rfl, show (30 : Nat) = 29 + 1 from rfl]
  simp only [checkFinalVideoStatusAux, Nat.zero_add, hf]
  rfl

/-- C2 witness: the degraded-but-completed outcome at a concrete oracle
whose ImageGenerator call fails. -/
theorem broll_failure_routes_to_final_video_witness :
    oracleBrollFails.brollOk = false ∧
    (initiateProcessing oracleBrollFails "vid.mp4" false false).steps.broll.status = .error ∧
    (initiateProcessing oracleBrollFails "vid.mp4" false false).steps.rendering.status = .completed ∧
    (initiateProcessing oracleBrollFails "vid.mp4" false false).events.countP isGenFinalCall = 1 :=
  ⟨rfl,
   by rw [broll_failure_routes_to_final_video oracleBrollFails "vid.mp4" trSample dataSample
        rfl rfl rfl rfl rfl],
   by rw [broll_failure_routes_to_final_video oracleBrollFails "vid.mp4" trSample dataSample
        rfl rfl rfl rfl rfl],
   by rw [broll_failure_routes_to_final_video oracleBrollFails "vid.mp4" trSample dataSample
        rfl rfl rfl rfl rfl]; decide⟩

/-- C3 counterexample: with a final video that never becomes ready, all 30
poll attempts are spent, yet the rendering step is marked completed at 100
and the client navigates to the preview — the job is reported as
completed, not failed. -/
theorem final_exhaustion_reports_completed_cex :
    (initiateProcessing oracleFinalNever "vid.mp4" false false).steps.rendering
        = { status := .completed, progress := 100 } ∧
    (initiateProcessing oracleFinalNever "vid.mp4" false false).nav = some "vid" ∧
    stepsHasError (initiateProcessing oracleFinalNever "vid.mp4" false false).steps = false ∧
    (initiateProcessing oracleFinalNever "vid.mp4" false false).events.countP isGetFinalUrlCall = 30 := by
  decide

/-- C3 (amended): when the final-video poll budget of 30 attempts is
exhausted, the run marks the rendering step completed at 100 and
navigates to the filename-derived preview URL — the job is reported
completed, and no error status appears anywhere. -/
theorem final_exhaustion_marks_completed (o : Oracle) (fn : String) (tr : TranscriptVal)
    (hc : o.captionsOk = true) (h1 : o.transcriptAt 1 = some tr)
    (hb : o.brollOk = true) (hg : o.finalGenOk = true) (hfn : ∀ k, o.finalUrlAt k = none) :
    initiateProcessing o fn false false =
      { events := .genCaptions true :: .getTranscript 1 true :: .getBRoll (brollPromptOf tr) true ::
                   .generateFinalVideo true :: finPollEvents 30 0
        steps := { upload := { status := .completed, progress := 100 }
                   transcription := { status := .completed, progress := 100 }
                   captions := { status := .completed, progress := 100 }
                   broll := { status := .completed, progress := 100 }
                   rendering := { status := .completed, progress := 100 } }
        currentStepIndex := 4
        nav := some (getShareableId fn) } ∧
    (initiateProcessing o fn false false).events.countP isGetFinalUrlCall = 30 := by
  have hrun : initiateProcessing o fn false false =
      { events := .genCaptions true :: .getTranscript 1 true :: .getBRoll (brollPromptOf tr) true ::
                   .generateFinalVideo true :: finPollEvents 30 0
        steps := { upload := { status := .completed, progress := 100 }
                   transcription := { status := .completed, progress := 100 }
                   captions := { status := .completed, progress := 100 }
                   broll := { status := .completed, progress := 100 }
                   rendering := { status := .completed, progress := 100 } }
        currentStepIndex := 4
        nav := some (getShareableId fn) } := by
    simp only [initiateProcessing, Bool.false_eq_true, if_false, hc, if_true, checkTranscriptStatus]
    rw [show maxAttempts - 0 = 20 from rfl, show (20 : Nat) = 19 + 1 from rfl]
    simp only [checkTranscriptStatusAux, Nat.zero_add, h1, runBroll, hb, startFinalVideo, hg,
      checkFinalVideoStatus]
    rw [show maxFinalVideoAttempts - 0 = 30 from rfl,
      checkFinalVideoStatusAux_all_none o fn hfn 30 0 _]
    rfl
  refine ⟨hrun, ?_⟩
  rw [hrun]
  simp [List.countP_cons, isGetFinalUrlCall, finPollEvents_countP]

/-- C3 witness: the amended behavior at the concrete never-ready final
video oracle. -/
theorem final_exhaustion_marks_completed_witness :
    (∀ k, oracleFinalNever.finalUrlAt k = none) ∧
    (initiateProcessing oracleFinalNever "vid.mp4" false false).events.countP isGetFinalUrlCall = 30 :=
  ⟨fun _ => rfl,
   (final_exhaustion_marks_completed oracleFinalNever "vid.mp4" trSample rfl rfl rfl rfl
     (fun _ => rfl)).2⟩

theorem finAux_constSleep (o : Oracle) (fn : String) :
    ∀ (fuel a : Nat) (st : Steps) (e : Event),
      e ∈ (checkFinalVideoStatusAux o fn fuel a st).events → isConstSleep e = true := by
  intro fuel
  induction fuel with
  | zero => intro a st e he; simp [checkFinalVideoStatusAux] at he
  | succ fuel ih =>
    intro a st e he
    rcases hcall : o.finalUrlAt (a + 1) with _ | data
    · simp only [checkFinalVideoStatusAux, hcall, List.mem_cons] at he
      rcases he with rfl | rfl | he
      · rfl
      · rfl
      · exact ih (a + 1) _ e he
    · simp only [checkFinalVideoStatusAux, hcall, List.mem_cons] at he
      rcases he with rfl | he
      · rfl
      · simp at he

theorem startFinalVideo_constSleep (o : Oracle) (fn : String) (st : Steps) (e : Event)
    (he : e ∈ (startFinalVideo o fn st).events) : isConstSleep e = true := by
  cases hg : o.finalGenOk
  · simp only [startFinalVideo, hg, Bool.false_eq_true, if_false, List.mem_cons] at he
    rcases he with rfl | he
    · rfl
    · simp at he
  · simp only [startFinalVideo, hg, if_true, checkFinalVideoStatus, List.mem_cons] at he
    rcases he with rfl | he
    · rfl
    · exact finAux_constSleep o fn _ _ _ e he

theorem runBroll_constSleep (o : Oracle) (fn : String) (tr : TranscriptVal) (st : Steps)
    (e : Event) (he : e ∈ (runBroll o fn tr st).events) : isConstSleep e = true := by
  cases hb : o.brollOk
  · simp only [runBroll, hb, Bool.false_eq_true, if_false, List.mem_cons] at he
    rcases he with rfl | he
    · rfl
    · exact startFinalVideo_constSleep o fn _ e he
  · simp only [runBroll, hb, if_true, List.mem_cons] at he
    rcases he with rfl | he
    · rfl
    · exact startFinalVideo_constSleep o fn _ e he

theorem trAux_constSleep (o : Oracle) (fn : String) (bf : Bool) :
    ∀ (fuel a : Nat) (st : Steps) (e : Event),
      e ∈ (checkTranscriptStatusAux o fn bf fuel a st).events → isConstSleep e = true := by
  intro fuel
  induction fuel with
  | zero => intro a st e he; simp [checkTranscriptStatusAux] at he
  | succ fuel ih =>
    intro a st e he
    rcases hcall : o.transcriptAt (a + 1) with _ | tr
    · simp only [checkTranscriptStatusAux, hcall, List.mem_cons] at he
      rcases he with rfl | rfl | he
      · rfl
      · rfl
      · exact ih (a + 1) _ e he
    · cases hbf : bf
      · simp only [checkTranscriptStatusAux, hcall, hbf, Bool.false_eq_true, if_false,
          List.mem_cons] at he
        rcases he with rfl | he
        · rfl
        · exact runBroll_constSleep o fn tr _ e he
      · simp only [checkTranscriptStatusAux, hcall, hbf, if_true, List.mem_cons] at he
        rcases he with rfl | he
        · rfl
        · simp at he

theorem initiateProcessing_constSleep (o : Oracle) (fn : String) (sf bf : Bool) (e : Event)
    (he : e ∈ (initiateProcessing o fn sf bf).events) : isConstSleep e = true := by
  cases hsf : sf
  · cases hc : o.captionsOk
    · simp only [initiateProcessing, hsf, hc, Bool.false_eq_true, if_false, List.mem_cons] at he
      rcases he with rfl | he
      · rfl
      · simp at he
    · simp only [initiateProcessing, hsf, hc, Bool.false_eq_true, if_false, if_true,
        checkTranscriptStatus, List.mem_cons] at he
      rcases he with rfl | he
      · rfl
      · exact trAux_constSleep o fn bf _ _ _ e he
  · simp only [initiateProcessing, hsf, if_true] at he
    simp at he

/-- C6 counterexample: in the run whose transcript never becomes ready, the
twenty scheduled delays are all 3000 ms, and no base-doubling capped
schedule matches them: the delays between attempts are constant, not
exponential backoff. -/
theorem retry_delay_not_exponential_cex :
    scheduledDelays (initiateProcessing oracleTranscriptNever "vid.mp4" false false).events =
      List.replicate 20 transcriptPollDelayMs ∧
    ¬ ∃ base cap : Nat, 0 < base ∧ base < cap ∧
        ∀ k, k < 20 →
          (List.replicate 20 transcriptPollDelayMs).getD k 0 = min (base * 2 ^ k) cap := by
  refine ⟨by decide, ?_⟩
  rintro ⟨base, cap, hb, hbc, hall⟩
  have h0 := hall 0 (by omega)
  have h1 := hall 1 (by omega)
  have e0 : (List.replicate 20 transcriptPollDelayMs).getD 0 0 = 3000 := by decide
  have e1 : (List.replicate 20 transcriptPollDelayMs).getD 1 0 = 3000 := by decide
  rw [e0, pow_zero, Nat.mul_one] at h0
  rw [e1, pow_one] at h1
  rw [Nat.min_def] at h0 h1
  split_ifs at h0 h1 <;> omega

/-- C6 (amended): every delay scheduled through setTimeout in any run is
the constant 3000 ms, for both the transcript poll and the final-video
poll; there is no exponential backoff. -/
theorem retry_delays_constant (o : Oracle) (fn : String) (sf bf : Bool) (d : Nat)
    (hd : d ∈ scheduledDelays (initiateProcessing o fn sf bf).events) : d = 3000 := by
  rcases List.mem_filterMap.mp hd with ⟨e, he, hde⟩
  have hcs := initiateProcessing_constSleep o fn sf bf e he
  cases e <;> simp_all [isConstSleep]

/-- C6 witness: the constant delay fact at a concrete run that schedules
retries. -/
theorem retry_delays_constant_witness :
    3000 ∈ scheduledDelays (initiateProcessing oracleTranscriptNever "vid.mp4" false false).events ∧
    (3000 : Nat) = 3000 :=
  ⟨by decide, retry_delays_constant oracleTranscriptNever "vid.mp4" false false 3000 (by decide)⟩

theorem runBroll_order (o : Oracle) (fn : String) (tr : TranscriptVal) (st : Steps) :
    precededBy isBRollCall isGenFinalCall (runBroll o fn tr st).events = true := by
  cases hb : o.brollOk <;>
    simp [runBroll, hb, precededBy, isBRollCall, isGenFinalCall]

theorem trAux_order (o : Oracle) (fn : String) (bf : Bool) :
    ∀ (fuel a : Nat) (st : Steps),
      precededBy isTranscriptOk isBRollCall
          (checkTranscriptStatusAux o fn bf fuel a st).events = true ∧
      precededBy isBRollCall isGenFinalCall
          (checkTranscriptStatusAux o fn bf fuel a st).events = true := by
  intro fuel
  induction fuel with
  | zero => intro a st; exact ⟨rfl, rfl⟩
  | succ fuel ih =>
    intro a st
    rcases hcall : o.transcriptAt (a + 1) with _ | tr
    · constructor
      · simp only [checkTranscriptStatusAux, hcall]
        simp [precededBy, isTranscriptOk, isBRollCall, (ih (a + 1) _).1]
      · simp only [checkTranscriptStatusAux, hcall]
        simp [precededBy, isBRollCall, isGenFinalCall, (ih (a + 1) _).2]
    · cases hbf : bf
      · constructor
        · simp only [checkTranscriptStatusAux, hcall, hbf, Bool.false_eq_true, if_false]
          simp [precededBy, isTranscriptOk, isBRollCall]
        · simp only [checkTranscriptStatusAux, hcall, hbf, Bool.false_eq_true, if_false]
          simp [precededBy, isBRollCall, isGenFinalCall, runBroll_order o fn tr _]
      · constructor
        · simp only [checkTranscriptStatusAux, hcall, hbf, if_true]
          simp [precededBy, isTranscriptOk, isBRollCall]
        · simp only [checkTranscriptStatusAux, hcall, hbf, if_true]
          simp [precededBy, isBRollCall, isGenFinalCall]

/-- C8: within one run, stages execute in pipeline order — no getBRoll call
occurs before a successful getTranscript, and no generateFinalVideo call
occurs before the getBRoll call has returned (with either outcome). -/
theorem pipeline_stage_order (o : Oracle) (fn : String) (sf bf : Bool) :
    precededBy isTranscriptOk isBRollCall (initiateProcessing o fn sf bf).events = true ∧
    precededBy isBRollCall isGenFinalCall (initiateProcessing o fn sf bf).events = true := by
  cases hsf : sf
  · cases hc : o.captionsOk
    · constructor <;>
        simp [initiateProcessing, hc, precededBy, isTranscriptOk, isBRollCall,
          isGenFinalCall, isGenCaptionsCall]
    · have h := trAux_order o fn bf maxAttempts 0 initialSteps
      constructor
      · simp [initiateProcessing, hc, checkTranscriptStatus, precededBy, isTranscriptOk,
          isBRollCall, h.1]
      · simp [initiateProcessing, hc, checkTranscriptStatus, precededBy, isBRollCall,
          isGenFinalCall, h.2]
  · constructor <;> simp [initiateProcessing, hsf, precededBy]

/-- C4: evaluation of the guards at the failing input.  When the second
effect run observes the committed flag state, the guard makes it a no-op
and each adapter is invoked exactly once; but when the effect re-runs
before the React state updates commit — both runs observing the initial
snapshot with isProcessingStarted and isBrollProcessing false — the stale
guards pass twice and every adapter call is duplicated. -/
theorem stale_flag_rerun_duplicates_calls :
    (runTwiceCommitted oracleAllOk "vid.mp4").countP isGenCaptionsCall = 1 ∧
    (runTwiceCommitted oracleAllOk "vid.mp4").countP isBRollCall = 1 ∧
    (runTwiceStale oracleAllOk "vid.mp4").countP isGenCaptionsCall = 2 ∧
    (runTwiceStale oracleAllOk "vid.mp4").countP isBRollCall = 2 ∧
    (runTwiceStale oracleAllOk "vid.mp4").countP isGenFinalCall = 2 := by
  decide

/-- C5 counterexample: a string transcript of 101 characters with no
period yields an excerpt of 101 characters — the excerpt is not capped at
the 100-character bound, so it is not the shorter of the first sentence
and the first 100 characters. -/
theorem broll_prompt_excerpt_unbounded_cex :
    (firstDotSegment (transcriptTextOf
        (TranscriptVal.str (String.mk (List.replicate 101 'a'))))).length = 101 ∧
    ¬ (firstDotSegment (transcriptTextOf
        (TranscriptVal.str (String.mk (List.replicate 101 'a'))))).length ≤ 100 := by
  decide

theorem all_takeWhile (p : Char → Bool) (l : List Char) : (l.takeWhile p).all p = true := by
  induction l with
  | nil => rfl
  | cons c cs ih =>
    rw [List.takeWhile_cons]
    by_cases h : p c = true <;> simp [h, ih]

/-- C5 (amended): the b-roll prompt is the fixed template followed by the
transcript text up to the first period (the whole text when none occurs);
the excerpt is a dot-free leading segment of the transcript text, the
derivation is a pure function of the transcript, and only the JSON
stringification fallback is capped at 100 characters. -/
theorem broll_prompt_derivation (tr : TranscriptVal) :
    brollPromptOf tr = brollTemplate ++ firstDotSegment (transcriptTextOf tr) ∧
    (∃ rest, transcriptTextOf tr = firstDotSegment (transcriptTextOf tr) ++ rest) ∧
    (firstDotSegment (transcriptTextOf tr)).data.all (fun c => c != '.') = true ∧
    (∀ j, (transcriptTextOf (TranscriptVal.obj none j)).length ≤ 100) := by
  refine ⟨rfl, ⟨⟨(transcriptTextOf tr).data.dropWhile (fun c => c != '.')⟩, ?_⟩, ?_, ?_⟩
  · refine string_eq_of_data _ _ ?_
    rw [string_data_append]
    exact (List.takeWhile_append_dropWhile _ _).symm
  · exact all_takeWhile _ _
  · intro j
    show (j.data.take 100).length ≤ 100
    rw [List.length_take]
    exact min_le_left _ _

/-- C7: every progress value shown to the client lies in the interval from
0 to 100 — the transcription and rendering per-attempt formulas are capped
at 95 and bounded below by 10, and the rounded mean of five step
progresses each at most 100 is itself at most 100 (all values are
naturals, hence at least 0). -/
theorem progress_values_bounded (a : Nat) (st : Steps)
    (h0 : st.upload.progress ≤ 100) (h1 : st.transcription.progress ≤ 100)
    (h2 : st.captions.progress ≤ 100) (h3 : st.broll.progress ≤ 100)
    (h4 : st.rendering.progress ≤ 100) :
    transcriptionProgress a ≤ 100 ∧ 10 ≤ transcriptionProgress a ∧
    renderingProgress a ≤ 100 ∧ 10 ≤ renderingProgress a ∧
    overallProgress st ≤ 100 := by
  refine ⟨?_, ?_, ?_, ?_, ?_⟩ <;>
    simp only [transcriptionProgress, renderingProgress, overallProgress,
      maxFinalVideoAttempts, Nat.min_def] <;>
    first
    | (split_ifs <;> omega)
    | omega

/-- C7 witness: the bounds at a concrete attempt count and the initial
steps state. -/
theorem progress_values_bounded_witness :
    initialSteps.upload.progress ≤ 100 ∧ transcriptionProgress 7 ≤ 100 ∧
    overallProgress initialSteps ≤ 100 :=
  ⟨by decide,
   (progress_values_bounded 7 initialSteps (by decide) (by decide) (by decide) (by decide)
     (by decide)).1,
   (progress_values_bounded 7 initialSteps (by decide) (by decide) (by decide) (by decide)
     (by decide)).2.2.2.2⟩

/-- C9: the shareable id is the URL-encoded filename with its extension
removed — for any filename with a nonempty, dot-free and slash-free
extension segment the id is exactly encodeURIComponent of the base name —
and navigation prefers a nonempty server-assigned share id, falling back
to the filename-derived id exactly when the share id is absent or empty
(JS falsy). -/
theorem share_id_derivation_stable (fn ext s : String)
    (hne : ext.data ≠ []) (hdot : ∀ c ∈ ext.data, c ≠ '.') (hsl : '/' ∉ ext.data)
    (hs : s ≠ "") :
    getShareableId (fn ++ "." ++ ext) = encodeURIComponent fn ∧
    navigationVideoId (some s) fn = s ∧
    navigationVideoId (some "") fn = getShareableId fn ∧
    navigationVideoId none fn = getShareableId fn := by
  refine ⟨?_, ?_, rfl, rfl⟩
  · rw [getShareableId]
    have hdata : (fn ++ "." ++ ext) = (⟨fn.data ++ '.' :: ext.data⟩ : String) := by
      refine string_eq_of_data _ _ ?_
      rw [string_data_append, string_data_append]
      simp
    rw [hdata, stripExt_concat_good _ _ hdot hne hsl]
  · simp [navigationVideoId, hs]

/-- C9 witness: the derivation and the navigation policy at concrete
values. -/
theorem share_id_derivation_stable_witness :
    ("mp4" : String).data ≠ [] ∧ ("abc" : String) ≠ "" ∧
    getShareableId ("vid" ++ "." ++ "mp4") = encodeURIComponent "vid" ∧
    navigationVideoId (some "abc") "vid" = "abc" :=
  ⟨by decide, by decide,
   (share_id_derivation_stable "vid" "mp4" "abc" (by decide) (by decide) (by decide)
     (by decide)).1,
   (share_id_derivation_stable "vid" "mp4" "abc" (by decide) (by decide) (by decide)
     (by decide)).2.1⟩
